import Mathlib

/-!
Verification of the request/response correlation core of the
league-client-mcp bridge, shallowly embedded from
`src/mcp-server/src/server.ts` (bridge server) and
`src/lol-plugin/src/index.ts` (remote agent).

The bridge server keeps a global `pluginClient` reference, a map
`pendingRequests : Map<string, PendingRequest>` from correlation ids to
`{resolve, reject, timer}` records, and reacts to WebSocket events
(`connection`, `message`, `close`) plus `sendToPlugin` calls and timer
expirations.  We model this as a small-step machine over an explicit
state record; each JavaScript event becomes one `Ev` constructor and
`step` reproduces the handler bodies.  Promises are modelled by a
settle-once log: `settled` records which calls already fired their
resolve/reject, and `outcomes` logs the value each call was settled
with (JS promises ignore a second resolve/reject, which `settle`
reproduces).
-/

namespace LeagueClientMcp

/-- Correlation ids are the `randomUUID()` strings. -/
abbrev RId := String

/-- The caller-visible ways a `sendToPlugin` promise can be settled,
from `server.ts`: `resolve({type, data, success})`, `reject(new
Error(error))`, the timeout rejection, the `"Plugin disconnected"`
rejection, and the `"No plugin connected..."` rejection. -/
inductive Outcome
  | resolved (ty : Option String) (data : Option String) (success : Option Bool)
  | remoteError (e : String)
  | timeout
  | disconnected
  | noEndpoint
deriving DecidableEq, Repr

/-- A parsed inbound wire message as destructured in `server.ts`:
`const { requestId, type, data, success, error } = message`.  Fields a
JSON object may lack are `Option`s (`none` = `undefined`). -/
structure Msg where
  requestId : Option RId
  ty : Option String
  data : Option String
  success : Option Bool
  error : Option String
deriving DecidableEq, Repr

/-- State of the bridge server process.

* `pluginClient` — the global `pluginClient` variable (connection ids
  are abstract `Nat`s naming the `ws` objects);
* `conns` — every connection the listener ever accepted, with its
  current readyState (`true` = OPEN, `false` = CLOSED); handlers stay
  attached to a socket for its whole life;
* `pending` — the `pendingRequests` map as an association list
  `requestId ↦ call`, where a call (`Nat`) names the promise created by
  one `sendToPlugin` invocation;
* `timers` — the scheduled, not yet fired or cancelled `setTimeout`
  callbacks: `(requestId, call, delayMs)`, the data the closure captures;
* `sent` — log of Request frames sent: `(connection, requestId, type)`;
* `outcomes` — log of promise settlements `(call, outcome)`;
* `settled` — calls whose promise has already been resolved/rejected. -/
structure SrvState where
  pluginClient : Option Nat
  conns : List (Nat × Bool)
  pending : List (RId × Nat)
  timers : List (RId × Nat × Nat)
  sent : List (Nat × RId × String)
  outcomes : List (Nat × Outcome)
  settled : List Nat
deriving DecidableEq, Repr

/-- Initial server state: no connection ever accepted, empty table. -/
def init : SrvState := ⟨none, [], [], [], [], [], []⟩

/-- Association-list lookup (the `Map.get` / `Map.has` of the source). -/
def afind {α β : Type} [DecidableEq α] : List (α × β) → α → Option β
  | [], _ => none
  | p :: rest, a => if p.1 = a then some p.2 else afind rest a

/-- `readyState === WebSocket.OPEN` for connection `c`. -/
def connOpen (s : SrvState) (c : Nat) : Bool := (afind s.conns c).getD false

/-- Settle call `k`'s promise with outcome `o`.  A JavaScript promise
ignores every resolve/reject after the first, so a second settle is a
no-op. -/
def settle (s : SrvState) (k : Nat) (o : Outcome) : SrvState :=
  if k ∈ s.settled then s
  else { s with outcomes := (k, o) :: s.outcomes, settled := k :: s.settled }

/-- Settle every call in `ks` with outcome `o` (the rejection loop of
the `close` handler). -/
def settleAll (s : SrvState) (ks : List Nat) (o : Outcome) : SrvState :=
  ks.foldl (fun acc k => settle acc k o) s

/-- The events the server reacts to.

* `connect c` — `wss.on("connection")` fires for a fresh socket `c`;
* `invoke k rid ty` — a tool handler calls `sendToPlugin(ty, …)`,
  creating promise `k`; `rid` is the `randomUUID()` drawn for it;
* `message c m` — socket `c` delivers a frame; `none` models text that
  `JSON.parse` rejects (the handler catches and logs);
* `closeC c` — the `close` event fires on socket `c`;
* `timeout rid` — the `setTimeout` callback registered for `rid` fires. -/
inductive Ev
  | connect (c : Nat)
  | invoke (k : Nat) (rid : RId) (ty : String)
  | message (c : Nat) (m : Option Msg)
  | closeC (c : Nat)
  | timeout (rid : RId)
deriving DecidableEq, Repr

/-- `REQUEST_TIMEOUT_MS` from `server.ts`. -/
def REQUEST_TIMEOUT_MS : Nat := 15000

/-- One event handler execution, transcribed from `server.ts`.

`connect`: the handler only does `pluginClient = ws` (and installs the
per-socket listeners, which `conns` records).  The guard `afind … =
some _ → no-op` encodes that the runtime fires `connection` once per
fresh socket object.

`invoke`: the body of `sendToPlugin`.  The first guard encodes the
uniqueness the runtime guarantees (a `new Promise` is distinct from
every live or settled one, and `randomUUID()` never repeats a live id
and is nonempty); under it the code checks the client, rejects with
`noEndpoint` when absent or not OPEN, and otherwise starts the timer,
registers the pending entry and sends the frame.

`message`: `JSON.parse` failure is caught (no-op).  Then
`if (requestId && pendingRequests.has(requestId))` — `""` is falsy —
the handler clears the timer, deletes the entry and settles:
`reject(new Error(error))` when `error` is truthy, else
`resolve({type, data, success})`.  Otherwise it only logs.

`closeC`: clears `pluginClient` if it still refers to this socket, then
for each pending entry clears its timer, rejects with
`"Plugin disconnected"` and deletes it — note the loop drains the whole
shared table whichever socket closed.

`timeout`: the callback deletes its `requestId` and rejects with the
timeout error; it only runs while scheduled (not yet `clearTimeout`ed). -/
def step (s : SrvState) : Ev → SrvState
  | .connect c =>
    match afind s.conns c with
    | some _ => s
    | none => { s with pluginClient := some c, conns := (c, true) :: s.conns }
  | .invoke k rid ty =>
    if k ∈ s.settled ∨ k ∈ s.pending.map Prod.snd ∨ rid ∈ s.pending.map Prod.fst ∨ rid = ""
    then s
    else
      match s.pluginClient with
      | none => settle s k .noEndpoint
      | some c =>
        if connOpen s c then
          { s with timers := (rid, k, REQUEST_TIMEOUT_MS) :: s.timers,
                   pending := (rid, k) :: s.pending,
                   sent := (c, rid, ty) :: s.sent }
        else settle s k .noEndpoint
  | .message c m =>
    if connOpen s c then
      match m with
      | none => s
      | some msg =>
        match msg.requestId with
        | none => s
        | some rid =>
          if rid = "" then s
          else
            match afind s.pending rid with
            | none => s
            | some k =>
              let s1 := { s with
                timers := s.timers.filter (fun t => !(t.1 == rid)),
                pending := s.pending.filter (fun p => !(p.1 == rid)) }
              match msg.error with
              | some e => if e = "" then settle s1 k (.resolved msg.ty msg.data msg.success)
                          else settle s1 k (.remoteError e)
              | none => settle s1 k (.resolved msg.ty msg.data msg.success)
    else s
  | .closeC c =>
    if connOpen s c then
      let s1 : SrvState := { s with
        conns := s.conns.map (fun p => if p.1 = c then (p.1, false) else p),
        pluginClient := if s.pluginClient = some c then none else s.pluginClient }
      let prs := s1.pending
      let s2 : SrvState := { s1 with
        pending := [],
        timers := s1.timers.filter (fun t => !((prs.map Prod.fst).contains t.1)) }
      settleAll s2 (prs.map Prod.snd) .disconnected
    else s
  | .timeout rid =>
    match afind s.timers rid with
    | none => s
    | some kd =>
      let s1 := { s with
        timers := s.timers.filter (fun t => !(t.1 == rid)),
        pending := s.pending.filter (fun p => !(p.1 == rid)) }
      settle s1 kd.1 .timeout

/-- Run the server from process start through a sequence of events. -/
def run (tr : List Ev) : SrvState := tr.foldl step init

/-! ## Remote agent (`src/lol-plugin/src/index.ts`) -/

/-- `RECONNECT_BASE_MS` from `index.ts`. -/
def RECONNECT_BASE_MS : Nat := 1000

/-- `RECONNECT_MAX_MS` from `index.ts`. -/
def RECONNECT_MAX_MS : Nat := 30000

/-- The readyStates the module-level `ws` variable can be observed in;
`connectWebSocket` bails out when it is CONNECTING or OPEN. -/
inductive WsPhase
  | connecting
  | opened
deriving DecidableEq, Repr

/-- Agent-side connection state: the `reconnectAttempt` counter, the
`ws` variable (`none` = `null`), and a log of the delays passed to
`setTimeout(connectWebSocket, delay)` by `scheduleReconnect`. -/
structure AgentState where
  reconnectAttempt : Nat
  wsConn : Option WsPhase
  scheduledDelays : List Nat
deriving DecidableEq, Repr

/-- Agent state at plugin load, before `connectWebSocket` runs. -/
def agentInit : AgentState := ⟨0, none, []⟩

/-- Agent connection-lifecycle events: a `connectWebSocket` call, the
socket's `open` event, and its `close` event (an `error` event only
logs; the `close` that follows it is the state change). -/
inductive AEv
  | connectAttempt
  | openEvt
  | closeEvt
deriving DecidableEq, Repr

/-- `scheduleReconnect`'s delay:
`Math.min(RECONNECT_BASE_MS * Math.pow(2, reconnectAttempt), RECONNECT_MAX_MS)`. -/
def reconnectDelay (attempt : Nat) : Nat :=
  min (RECONNECT_BASE_MS * 2 ^ attempt) RECONNECT_MAX_MS

/-- Agent lifecycle step, transcribed from `index.ts`:

* `connectWebSocket` returns immediately when `ws` is already
  CONNECTING or OPEN, else creates a new socket (CONNECTING);
* the `open` listener sets `reconnectAttempt = 0` (it fires on a
  CONNECTING socket);
* the `close` listener sets `ws = null` and calls `scheduleReconnect`,
  which computes the capped exponential delay from the current
  `reconnectAttempt`, increments the counter, and schedules
  `connectWebSocket`. -/
def astep (s : AgentState) : AEv → AgentState
  | .connectAttempt =>
    match s.wsConn with
    | some _ => s
    | none => { s with wsConn := some .connecting }
  | .openEvt =>
    match s.wsConn with
    | some .connecting => { s with wsConn := some .opened, reconnectAttempt := 0 }
    | _ => s
  | .closeEvt =>
    match s.wsConn with
    | some _ =>
      { reconnectAttempt := s.reconnectAttempt + 1,
        wsConn := none,
        scheduledDelays := reconnectDelay s.reconnectAttempt :: s.scheduledDelays }
    | none => s

/-- A JavaScript value as far as the agent's `INJECT_CSS` validation
observes it (`!css || typeof css !== 'string'`). -/
inductive JsValue
  | undef
  | nullv
  | boolv (b : Bool)
  | numv (n : Int)
  | strv (s : String)
deriving DecidableEq, Repr

/-- The agent's `WSMessage` interface:
`{ requestId?: string; type: string; data?: unknown }`. -/
structure WSMessage where
  requestId : Option String
  ty : String
  data : JsValue
deriving DecidableEq, Repr

/-- A frame the agent sends back: `sendResponse` sends
`{requestId, type, data, success}`, `sendError` sends
`{requestId, error}`. -/
inductive AgentWire
  | response (requestId ty : String) (data : JsValue) (success : Bool)
  | errorResp (requestId : String) (error : String)
deriving DecidableEq, Repr

/-- The correlation id a reply frame carries. -/
def replyRid : AgentWire → String
  | .response rid _ _ _ => rid
  | .errorResp rid _ => rid

/-- `sendResponse`: sends one frame when the socket is OPEN, else only
logs and sends nothing. -/
def sendResponse (wsOpen : Bool) (rid ty : String) (data : JsValue) (success : Bool) :
    List AgentWire :=
  if wsOpen then [.response rid ty data success] else []

/-- `sendError`: sends one error frame when the socket is OPEN, else
nothing. -/
def sendError (wsOpen : Bool) (rid err : String) : List AgentWire :=
  if wsOpen then [.errorResp rid err] else []

/-- `handleMessage`, transcribed from `index.ts`.  The local operation
executors are passed as oracles: `domSnap` is what
`getCleanDOMSnapshot()` does (`Except.ok html` or `Except.error m` for
a throw with message `m`), `injectThrows` is `some m` when
`injectCSS` would throw.  `doc` is the content of the injected
`<style>` element (`none` = not created yet); the second component of
the result is that element after handling.

* no `requestId` (or the falsy `""`): warn and return, nothing sent;
* `GET_DOM`: send the snapshot as a `DOM_SNAPSHOT` response, or a
  `Failed to capture DOM:` error if the capture threw;
* `INJECT_CSS`: `!css || typeof css !== 'string'` sends the
  `Invalid CSS` error and returns without touching the document; else
  `injectCSS(css)` sets the style content and a `CSS_INJECTED`
  response is sent (a throw inside sends a `Failed to inject CSS:`
  error);
* any other type: send `Unknown message type:` error. -/
def handleMessage (wsOpen : Bool) (domSnap : Except String String)
    (injectThrows : Option String) (doc : Option String) (msg : WSMessage) :
    List AgentWire × Option String :=
  match msg.requestId with
  | none => ([], doc)
  | some rid =>
    if rid = "" then ([], doc)
    else if msg.ty = "GET_DOM" then
      match domSnap with
      | .ok snap => (sendResponse wsOpen rid "DOM_SNAPSHOT" (.strv snap) true, doc)
      | .error e => (sendError wsOpen rid ("Failed to capture DOM: " ++ e), doc)
    else if msg.ty = "INJECT_CSS" then
      match msg.data with
      | .strv css =>
        if css = "" then
          (sendError wsOpen rid "Invalid CSS: expected a non-empty string", doc)
        else
          match injectThrows with
          | some e => (sendError wsOpen rid ("Failed to inject CSS: " ++ e), doc)
          | none => (sendResponse wsOpen rid "CSS_INJECTED" JsValue.nullv true, some css)
      | _ => (sendError wsOpen rid "Invalid CSS: expected a non-empty string", doc)
    else (sendError wsOpen rid ("Unknown message type: " ++ msg.ty), doc)

/-- Classifier for C8: did the requested local operation succeed?
`GET_DOM` succeeds iff the capture did not throw; `INJECT_CSS` succeeds
iff the payload is a truthy string and `injectCSS` did not throw;
unknown operations fail. -/
def requestSucceeds (msg : WSMessage) (domSnap : Except String String)
    (injectThrows : Option String) : Bool :=
  if msg.ty = "GET_DOM" then
    match domSnap with
    | .ok _ => true
    | .error _ => false
  else if msg.ty = "INJECT_CSS" then
    match msg.data with
    | .strv css => !(css == "") && injectThrows.isNone
    | _ => false
  else false

/-! ## Server invariants -/

/-- The state invariant maintained by every handler: pending ids and
calls are duplicate-free, pending calls are unsettled, every live timer
belongs to a pending entry and carries the fixed 15 s delay, the
outcome log matches the settled set, and the installed client, if any,
is an OPEN socket. -/
structure Inv (s : SrvState) : Prop where
  pendingRids : (s.pending.map Prod.fst).Nodup
  pendingCalls : (s.pending.map Prod.snd).Nodup
  pendingFresh : ∀ p ∈ s.pending, p.2 ∉ s.settled
  timersSub : ∀ t ∈ s.timers, ((t.1, t.2.1) : RId × Nat) ∈ s.pending
  timerDelay : ∀ t ∈ s.timers, t.2.2 = REQUEST_TIMEOUT_MS
  outcomesKeys : s.outcomes.map Prod.fst = s.settled
  settledNodup : s.settled.Nodup
  plugOpen : ∀ c, s.pluginClient = some c → connOpen s c = true

theorem afind_mem {α β : Type} [DecidableEq α] {a : α} {b : β} :
    ∀ {l : List (α × β)}, afind l a = some b → (a, b) ∈ l := by
  intro l
  induction l with
  | nil => intro h; simp [afind] at h
  | cons p rest ih =>
    intro h
    simp only [afind] at h
    split at h
    · rename_i hp
      cases h
      subst hp
      simp
    · exact List.mem_cons_of_mem _ (ih h)

theorem afind_eq_none_iff {α β : Type} [DecidableEq α] {a : α} :
    ∀ {l : List (α × β)}, afind l a = none ↔ a ∉ l.map Prod.fst := by
  intro l
  induction l with
  | nil => simp [afind]
  | cons p rest ih =>
    simp only [afind, List.map_cons, List.mem_cons]
    split
    · rename_i hp
      constructor
      · intro h; simp at h
      · intro h; exact absurd (Or.inl hp.symm) h
    · rename_i hp
      rw [ih]
      constructor
      · intro h hmem
        rcases hmem with he | hm
        · exact hp he.symm
        · exact h hm
      · intro h hm
        exact h (Or.inr hm)

theorem afind_filter_self {β : Type} {rid : RId} {l : List (RId × β)} :
    afind (l.filter (fun p => !(p.1 == rid))) rid = none := by
  rw [afind_eq_none_iff]
  intro hm
  rcases List.mem_map.1 hm with ⟨p, hp, he⟩
  rcases List.mem_filter.1 hp with ⟨_, hpf⟩
  simp [he] at hpf

theorem settle_pending (s : SrvState) (k : Nat) (o : Outcome) :
    (settle s k o).pending = s.pending := by
  unfold settle; split <;> rfl

theorem settle_timers (s : SrvState) (k : Nat) (o : Outcome) :
    (settle s k o).timers = s.timers := by
  unfold settle; split <;> rfl

theorem settle_conns (s : SrvState) (k : Nat) (o : Outcome) :
    (settle s k o).conns = s.conns := by
  unfold settle; split <;> rfl

theorem settle_plugin (s : SrvState) (k : Nat) (o : Outcome) :
    (settle s k o).pluginClient = s.pluginClient := by
  unfold settle; split <;> rfl

theorem settle_sent (s : SrvState) (k : Nat) (o : Outcome) :
    (settle s k o).sent = s.sent := by
  unfold settle; split <;> rfl

theorem connOpen_settle (s : SrvState) (k : Nat) (o : Outcome) (c : Nat) :
    connOpen (settle s k o) c = connOpen s c := by
  unfold connOpen
  rw [settle_conns]

theorem settle_mem_outcomes {s : SrvState} {k : Nat} (o : Outcome) (h : k ∉ s.settled) :
    (k, o) ∈ (settle s k o).outcomes := by
  unfold settle
  rw [if_neg h]
  exact List.mem_cons_self _ _

theorem settle_outcomes_mono {s : SrvState} {q : Nat × Outcome} (k : Nat) (o : Outcome)
    (h : q ∈ s.outcomes) : q ∈ (settle s k o).outcomes := by
  unfold settle; split
  · exact h
  · exact List.mem_cons_of_mem _ h

theorem settle_settled_mono {s : SrvState} {k' : Nat} (k : Nat) (o : Outcome)
    (h : k' ∈ s.settled) : k' ∈ (settle s k o).settled := by
  unfold settle; split
  · exact h
  · exact List.mem_cons_of_mem _ h

theorem settle_settled_cases {s : SrvState} {k' : Nat} {k : Nat} {o : Outcome}
    (h : k' ∈ (settle s k o).settled) : k' = k ∨ k' ∈ s.settled := by
  unfold settle at h
  split at h
  · exact Or.inr h
  · rcases List.mem_cons.1 h with h | h
    · exact Or.inl h
    · exact Or.inr h

theorem settle_keys {s : SrvState} (k : Nat) (o : Outcome)
    (h : s.outcomes.map Prod.fst = s.settled) :
    (settle s k o).outcomes.map Prod.fst = (settle s k o).settled := by
  unfold settle; split
  · exact h
  · simp [h]

theorem settle_settledNodup {s : SrvState} (k : Nat) (o : Outcome)
    (h : s.settled.Nodup) : (settle s k o).settled.Nodup := by
  unfold settle; split
  · exact h
  · rename_i hk
    exact List.nodup_cons.2 ⟨hk, h⟩

theorem settleAll_pending (s : SrvState) (ks : List Nat) (o : Outcome) :
    (settleAll s ks o).pending = s.pending := by
  induction ks generalizing s with
  | nil => rfl
  | cons a rest ih => rw [settleAll, List.foldl_cons, ← settleAll, ih, settle_pending]

theorem settleAll_timers (s : SrvState) (ks : List Nat) (o : Outcome) :
    (settleAll s ks o).timers = s.timers := by
  induction ks generalizing s with
  | nil => rfl
  | cons a rest ih => rw [settleAll, List.foldl_cons, ← settleAll, ih, settle_timers]

theorem settleAll_conns (s : SrvState) (ks : List Nat) (o : Outcome) :
    (settleAll s ks o).conns = s.conns := by
  induction ks generalizing s with
  | nil => rfl
  | cons a rest ih => rw [settleAll, List.foldl_cons, ← settleAll, ih, settle_conns]

theorem settleAll_plugin (s : SrvState) (ks : List Nat) (o : Outcome) :
    (settleAll s ks o).pluginClient = s.pluginClient := by
  induction ks generalizing s with
  | nil => rfl
  | cons a rest ih => rw [settleAll, List.foldl_cons, ← settleAll, ih, settle_plugin]

theorem settleAll_sent (s : SrvState) (ks : List Nat) (o : Outcome) :
    (settleAll s ks o).sent = s.sent := by
  induction ks generalizing s with
  | nil => rfl
  | cons a rest ih => rw [settleAll, List.foldl_cons, ← settleAll, ih, settle_sent]

theorem settleAll_outcomes_mono {s : SrvState} {q : Nat × Outcome} (ks : List Nat) (o : Outcome)
    (h : q ∈ s.outcomes) : q ∈ (settleAll s ks o).outcomes := by
  induction ks generalizing s with
  | nil => exact h
  | cons a rest ih =>
    rw [settleAll, List.foldl_cons, ← settleAll]
    exact ih (settle_outcomes_mono a o h)

theorem settleAll_keys {s : SrvState} (ks : List Nat) (o : Outcome)
    (h : s.outcomes.map Prod.fst = s.settled) :
    (settleAll s ks o).outcomes.map Prod.fst = (settleAll s ks o).settled := by
  induction ks generalizing s with
  | nil => exact h
  | cons a rest ih =>
    rw [settleAll, List.foldl_cons, ← settleAll]
    exact ih (settle_keys a o h)

theorem settleAll_settledNodup {s : SrvState} (ks : List Nat) (o : Outcome)
    (h : s.settled.Nodup) : (settleAll s ks o).settled.Nodup := by
  induction ks generalizing s with
  | nil => exact h
  | cons a rest ih =>
    rw [settleAll, List.foldl_cons, ← settleAll]
    exact ih (settle_settledNodup a o h)

theorem settleAll_outcomes_nodup {s : SrvState} (ks : List Nat) (o : Outcome)
    (h1 : s.outcomes.map Prod.fst = s.settled) (h2 : s.settled.Nodup) :
    ((settleAll s ks o).outcomes.map Prod.fst).Nodup := by
  rw [settleAll_keys ks o h1]
  exact settleAll_settledNodup ks o h2

/-- Every call in a duplicate-free, unsettled batch ends up in the
outcome log with the batch outcome. -/
theorem settleAll_mem {s : SrvState} {ks : List Nat} {o : Outcome}
    (hnd : ks.Nodup) (hfresh : ∀ k ∈ ks, k ∉ s.settled) :
    ∀ k ∈ ks, (k, o) ∈ (settleAll s ks o).outcomes := by
  induction ks generalizing s with
  | nil => intro k hk; simp at hk
  | cons a rest ih =>
    intro k hk
    rw [settleAll, List.foldl_cons, ← settleAll]
    have ha : a ∉ s.settled := hfresh a (List.mem_cons_self _ _)
    rcases List.mem_cons.1 hk with rfl | hk'
    · exact settleAll_outcomes_mono rest o (settle_mem_outcomes o ha)
    · have hnd' := (List.nodup_cons.1 hnd)
      refine ih hnd'.2 ?_ k hk'
      intro k' hk' hks
      rcases settle_settled_cases hks with rfl | hin
      · exact hnd'.1 hk'
      · exact hfresh k' (List.mem_cons_of_mem _ hk') hin

/-- After closing connection `c`, lookups of every other connection are
unchanged. -/
theorem afind_map_close {c : Nat} {c' : Nat} (hne : c' ≠ c) :
    ∀ {l : List (Nat × Bool)},
      afind (l.map (fun p => if p.1 = c then (p.1, false) else p)) c' = afind l c' := by
  intro l
  induction l with
  | nil => rfl
  | cons p rest ih =>
    by_cases hp : p.1 = c
    · have hp' : ¬ p.1 = c' := fun h => hne (h.symm.trans hp)
      simp only [List.map_cons, if_pos hp, afind, if_neg hp', ih]
    · simp only [List.map_cons, if_neg hp, afind, ih]

/-- Settling a call that has no pending entry preserves the invariant. -/
theorem inv_settle_unpending {s : SrvState} (h : Inv s) {k : Nat}
    (hk : k ∉ s.pending.map Prod.snd) (o : Outcome) : Inv (settle s k o) := by
  constructor
  · rw [settle_pending]; exact h.pendingRids
  · rw [settle_pending]; exact h.pendingCalls
  · rw [settle_pending]
    intro p hp hps
    rcases settle_settled_cases hps with he | hin
    · exact hk (List.mem_map.2 ⟨p, hp, he⟩)
    · exact h.pendingFresh p hp hin
  · rw [settle_timers, settle_pending]; exact h.timersSub
  · rw [settle_timers]; exact h.timerDelay
  · exact settle_keys k o h.outcomesKeys
  · exact settle_settledNodup k o h.settledNodup
  · intro c hc
    rw [settle_plugin] at hc
    rw [connOpen_settle]
    exact h.plugOpen c hc

/-- Removing a matched pending entry and settling its call preserves
the invariant (the shared core of the `message` handler and the timer
callback). -/
theorem inv_remove_settle {s : SrvState} (h : Inv s) {rid : RId} {k : Nat}
    (hmem : (rid, k) ∈ s.pending) (o : Outcome) :
    Inv (settle { s with
        timers := s.timers.filter (fun t => !(t.1 == rid)),
        pending := s.pending.filter (fun p => !(p.1 == rid)) } k o) := by
  have hsubP : (s.pending.filter (fun p => !(p.1 == rid))).Sublist s.pending :=
    List.filter_sublist s.pending
  constructor
  · rw [settle_pending]
    exact ((hsubP.map Prod.fst).nodup h.pendingRids)
  · rw [settle_pending]
    exact ((hsubP.map Prod.snd).nodup h.pendingCalls)
  · rw [settle_pending]
    intro p hp hps
    rcases List.mem_filter.1 hp with ⟨hpin, hpne⟩
    rcases settle_settled_cases hps with he | hin
    · have : p = (rid, k) := List.inj_on_of_nodup_map h.pendingCalls hpin hmem he
      rw [this] at hpne
      simp at hpne
    · exact h.pendingFresh p hpin hin
  · rw [settle_timers, settle_pending]
    intro t ht
    rcases List.mem_filter.1 ht with ⟨htin, htne⟩
    exact List.mem_filter.2 ⟨h.timersSub t htin, htne⟩
  · rw [settle_timers]
    intro t ht
    exact h.timerDelay t (List.mem_filter.1 ht).1
  · exact settle_keys k o h.outcomesKeys
  · exact settle_settledNodup k o h.settledNodup
  · intro c hc
    rw [settle_plugin] at hc
    rw [connOpen_settle]
    exact h.plugOpen c hc

/-- The empty starting state satisfies the invariant. -/
theorem inv_init : Inv init := by
  constructor <;> simp [init, connOpen, afind]

/-- Every handler preserves the invariant. -/
theorem inv_step {s : SrvState} (h : Inv s) : ∀ e, Inv (step s e)
  | .connect c => by
    simp only [step]
    split
    · exact h
    · constructor
      · exact h.pendingRids
      · exact h.pendingCalls
      · exact h.pendingFresh
      · exact h.timersSub
      · exact h.timerDelay
      · exact h.outcomesKeys
      · exact h.settledNodup
      · intro c' hc'
        cases hc'
        simp [connOpen, afind]
  | .invoke k rid ty => by
    simp only [step]
    split
    · exact h
    · rename_i hg
      push_neg at hg
      obtain ⟨hg1, hg2, hg3, hg4⟩ := hg
      split
      · exact inv_settle_unpending h hg2 .noEndpoint
      · rename_i c hc
        split
        · rename_i hopen
          constructor
          · rw [List.map_cons]
            exact List.nodup_cons.2 ⟨hg3, h.pendingRids⟩
          · rw [List.map_cons]
            exact List.nodup_cons.2 ⟨hg2, h.pendingCalls⟩
          · intro p hp hps
            rcases List.mem_cons.1 hp with rfl | hp'
            · exact hg1 hps
            · exact h.pendingFresh p hp' hps
          · intro t ht
            rcases List.mem_cons.1 ht with rfl | ht'
            · exact List.mem_cons_self _ _
            · exact List.mem_cons_of_mem _ (h.timersSub t ht')
          · intro t ht
            rcases List.mem_cons.1 ht with rfl | ht'
            · rfl
            · exact h.timerDelay t ht'
          · exact h.outcomesKeys
          · exact h.settledNodup
          · intro c' hc'
            exact h.plugOpen c' hc'
        · exact inv_settle_unpending h hg2 .noEndpoint
  | .message c m => by
    simp only [step]
    split
    · rcases m with _ | msg
      · exact h
      · rcases hid : msg.requestId with _ | rid
        · simp only [hid]
          exact h
        · simp only [hid]
          split
          · exact h
          · rcases hfind : afind s.pending rid with _ | k
            · simp only [hfind]
              exact h
            · simp only [hfind]
              have hmem := afind_mem hfind
              rcases herr : msg.error with _ | e
              · simp only [herr]
                exact inv_remove_settle h hmem _
              · simp only [herr]
                split
                · exact inv_remove_settle h hmem _
                · exact inv_remove_settle h hmem _
    · exact h
  | .closeC c => by
    simp only [step]
    split
    · rename_i hopen
      have htimers : ({ s with
          conns := s.conns.map (fun p => if p.1 = c then (p.1, false) else p),
          pluginClient := if s.pluginClient = some c then none else s.pluginClient,
          pending := ([] : List (RId × Nat)),
          timers := s.timers.filter
            (fun t => !((s.pending.map Prod.fst).contains t.1)) } : SrvState).timers = [] := by
        rw [List.filter_eq_nil_iff]
        intro t ht
        have : t.1 ∈ s.pending.map Prod.fst :=
          List.mem_map.2 ⟨(t.1, t.2.1), h.timersSub t ht, rfl⟩
        simp [this]
      constructor
      · rw [settleAll_pending]; simp
      · rw [settleAll_pending]; simp
      · rw [settleAll_pending]
        intro p hp
        simp at hp
      · rw [settleAll_timers, settleAll_pending, htimers]
        intro t ht
        simp at ht
      · rw [settleAll_timers, htimers]
        intro t ht
        simp at ht
      · exact settleAll_keys _ _ h.outcomesKeys
      · exact settleAll_settledNodup _ _ h.settledNodup
      · intro c' hc'
        rw [settleAll_plugin] at hc'
        have hc2 : (if s.pluginClient = some c then none else s.pluginClient) = some c' := hc'
        unfold connOpen
        rw [settleAll_conns]
        split at hc2
        · cases hc2
        · rename_i hne
          have hcc : c' ≠ c := fun he => hne (he ▸ hc2)
          show (afind (s.conns.map (fun p => if p.1 = c then (p.1, false) else p)) c').getD false
              = true
          rw [afind_map_close hcc]
          exact h.plugOpen c' hc2
    · exact h
  | .timeout rid => by
    simp only [step]
    split
    · exact h
    · rename_i kd hfind
      have hmem := h.timersSub _ (afind_mem hfind)
      exact inv_remove_settle h hmem .timeout

/-- The invariant holds on every reachable state. -/
theorem inv_foldl {s : SrvState} (h : Inv s) (tr : List Ev) : Inv (tr.foldl step s) := by
  induction tr generalizing s with
  | nil => exact h
  | cons e rest ih => exact ih (inv_step h e)

/-- The invariant holds after any event trace from process start. -/
theorem inv_run (tr : List Ev) : Inv (run tr) := inv_foldl inv_init tr

/-- Executing one more event extends the run. -/
theorem run_append (tr : List Ev) (e : Ev) : run (tr ++ [e]) = step (run tr) e := by
  simp [run, List.foldl_append]

/-- A correlated message whose id has no pending entry leaves the state
completely unchanged (the handler only logs it). -/
theorem message_noop {s : SrvState} (c : Nat) {msg : Msg} {rid : RId}
    (hid : msg.requestId = some rid) (hfind : afind s.pending rid = none) :
    step s (.message c (some msg)) = s := by
  simp only [step]
  split
  · simp only [hid]
    split
    · rfl
    · rw [hfind]
  · rfl

/-- A timeout whose timer is no longer scheduled is a no-op. -/
theorem timeout_noop {s : SrvState} {rid : RId} (hfind : afind s.timers rid = none) :
    step s (.timeout rid) = s := by
  simp only [step, hfind]

/-- If a message event settles a previously unsettled call, the message
carried precisely the correlation id registered for that call. -/
theorem message_settles_matching {s : SrvState} {c : Nat} {m : Option Msg} {k : Nat}
    (hns : k ∉ s.settled) (hs : k ∈ (step s (.message c m)).settled) :
    ∃ msg rid, m = some msg ∧ msg.requestId = some rid ∧ afind s.pending rid = some k := by
  rcases m with _ | msg
  · have hnone : step s (.message c none) = s := by
      simp only [step]
      split <;> rfl
    rw [hnone] at hs
    exact absurd hs hns
  · by_cases hc : connOpen s c = true
    · simp only [step, if_pos hc] at hs
      rcases hid : msg.requestId with _ | rid
      · simp only [hid] at hs
        exact absurd hs hns
      · simp only [hid] at hs
        by_cases hr : rid = ""
        · simp only [if_pos hr] at hs
          exact absurd hs hns
        · simp only [if_neg hr] at hs
          rcases hfind : afind s.pending rid with _ | k'
          · simp only [hfind] at hs
            exact absurd hs hns
          · simp only [hfind] at hs
            have hcases : k = k' ∨ k ∈ s.settled := by
              rcases herr : msg.error with _ | e
              · simp only [herr] at hs
                have h2 := settle_settled_cases hs
                exact h2
              · simp only [herr] at hs
                split at hs
                · have h2 := settle_settled_cases hs
                  exact h2
                · have h2 := settle_settled_cases hs
                  exact h2
            rcases hcases with rfl | hin
            · exact ⟨msg, rid, rfl, hid, hfind⟩
            · exact absurd hin hns
    · simp only [step, if_neg hc] at hs
      exact absurd hs hns

/-- Settling a fresh call records its outcome and nothing else. -/
theorem settle_fresh_eq {s : SrvState} {k : Nat} (o : Outcome) (h : k ∉ s.settled) :
    settle s k o = { s with outcomes := (k, o) :: s.outcomes, settled := k :: s.settled } := by
  unfold settle
  rw [if_neg h]

/-- A successful `sendToPlugin` registration: with an OPEN client, the
call starts the 15 s timer, registers the pending entry, and sends the
frame on the installed connection. -/
theorem invoke_sends {s : SrvState} {c : Nat} (hplug : s.pluginClient = some c)
    (hopen : connOpen s c = true) {k : Nat} {rid : RId} (ty : String)
    (hk1 : k ∉ s.settled) (hk2 : k ∉ s.pending.map Prod.snd)
    (hr1 : rid ∉ s.pending.map Prod.fst) (hr2 : rid ≠ "") :
    step s (.invoke k rid ty) = { s with
      timers := (rid, k, REQUEST_TIMEOUT_MS) :: s.timers,
      pending := (rid, k) :: s.pending,
      sent := (c, rid, ty) :: s.sent } := by
  simp only [step, hplug]
  rw [if_neg, if_pos hopen]
  push_neg
  exact ⟨hk1, hk2, hr1, hr2⟩

/-- What the `close` handler does to an OPEN socket, written out. -/
theorem step_closeC_open {s : SrvState} {c : Nat} (hc : connOpen s c = true) :
    step s (.closeC c) = settleAll { s with
        conns := s.conns.map (fun p => if p.1 = c then (p.1, false) else p),
        pluginClient := if s.pluginClient = some c then none else s.pluginClient,
        pending := [],
        timers := s.timers.filter (fun t => !((s.pending.map Prod.fst).contains t.1)) }
      (s.pending.map Prod.snd) Outcome.disconnected := by
  simp only [step, if_pos hc]

/-- Closing any OPEN socket drains the shared table: the table and the
timers end empty, the outcome log stays duplicate-free, and every call
that was pending is rejected with the disconnect error. -/
theorem closeC_drains {s : SrvState} (h : Inv s) {c : Nat} (hc : connOpen s c = true) :
    (step s (.closeC c)).pending = [] ∧
    (step s (.closeC c)).timers = [] ∧
    ((step s (.closeC c)).outcomes.map Prod.fst).Nodup ∧
    ∀ p ∈ s.pending, (p.2, Outcome.disconnected) ∈ (step s (.closeC c)).outcomes := by
  rw [step_closeC_open hc]
  refine ⟨settleAll_pending _ _ _, ?_, ?_, ?_⟩
  · rw [settleAll_timers]
    show s.timers.filter (fun t => !((s.pending.map Prod.fst).contains t.1)) = []
    rw [List.filter_eq_nil_iff]
    intro t ht
    have hmem : t.1 ∈ s.pending.map Prod.fst :=
      List.mem_map.2 ⟨(t.1, t.2.1), h.timersSub t ht, rfl⟩
    simp [hmem]
  · exact settleAll_outcomes_nodup _ _ h.outcomesKeys h.settledNodup
  · intro p hp
    refine settleAll_mem h.pendingCalls ?_ p.2 (List.mem_map.2 ⟨p, hp, rfl⟩)
    intro k hk
    rcases List.mem_map.1 hk with ⟨q, hq, rfl⟩
    exact h.pendingFresh q hq

/-! ## Claims -/

/-- Claim C1, counterexample.  The claim says a new inbound connection
first closes the prior connection and rejects every pending call with
`EndpointDisconnected` before installing the new transport.  On the
concrete run `connect 0; invoke 1 "r1"; connect 1` the code does
neither: connection 0 is still OPEN, no call was settled at all, and
the pending entry registered against connection 0 is still in the
table — only the slot was overwritten. -/
theorem C1_counterexample :
    connOpen (run [Ev.connect 0, Ev.invoke 1 "r1" "GET_DOM", Ev.connect 1]) 0 = true ∧
    (run [Ev.connect 0, Ev.invoke 1 "r1" "GET_DOM", Ev.connect 1]).outcomes = [] ∧
    (run [Ev.connect 0, Ev.invoke 1 "r1" "GET_DOM", Ev.connect 1]).pending = [("r1", 1)] ∧
    (run [Ev.connect 0, Ev.invoke 1 "r1" "GET_DOM", Ev.connect 1]).pluginClient = some 1 := by
  decide

/-- Claim C1, amended: when a new inbound connection is accepted, the
new transport is installed immediately and subsequent invoke calls
route to it, but the prior connection is not closed, no pending call is
rejected, and the pending table and timers are untouched at accept
time. -/
theorem C1_amended_install_only (tr : List Ev) (c : Nat)
    (hfresh : afind (run tr).conns c = none) :
    (step (run tr) (.connect c)).pluginClient = some c ∧
    (step (run tr) (.connect c)).pending = (run tr).pending ∧
    (step (run tr) (.connect c)).timers = (run tr).timers ∧
    (step (run tr) (.connect c)).outcomes = (run tr).outcomes ∧
    (∀ c', c' ≠ c → afind (step (run tr) (.connect c)).conns c' = afind (run tr).conns c') ∧
    ∀ k rid ty, k ∉ (run tr).settled → k ∉ (run tr).pending.map Prod.snd →
      rid ∉ (run tr).pending.map Prod.fst → rid ≠ "" →
      (step (step (run tr) (.connect c)) (.invoke k rid ty)).sent
        = (c, rid, ty) :: (run tr).sent := by
  have hstep : step (run tr) (.connect c) = ⟨some c, (c, true) :: (run tr).conns,
      (run tr).pending, (run tr).timers, (run tr).sent, (run tr).outcomes,
      (run tr).settled⟩ := by
    simp only [step, hfresh]
  rw [hstep]
  refine ⟨rfl, rfl, rfl, rfl, ?_, ?_⟩
  · intro c' hne
    show (if c = c' then some true else afind (run tr).conns c') = afind (run tr).conns c'
    rw [if_neg (fun h => hne h.symm)]
  · intro k rid ty hk1 hk2 hr1 hr2
    have hplug2 : (⟨some c, (c, true) :: (run tr).conns, (run tr).pending,
        (run tr).timers, (run tr).sent, (run tr).outcomes,
        (run tr).settled⟩ : SrvState).pluginClient = some c := rfl
    have hopen2 : connOpen ⟨some c, (c, true) :: (run tr).conns, (run tr).pending,
        (run tr).timers, (run tr).sent, (run tr).outcomes, (run tr).settled⟩ c = true := by
      simp [connOpen, afind]
    rw [invoke_sends hplug2 hopen2 ty hk1 hk2 hr1 hr2]

/-- Claim C1 amended, witness: concrete second connection while a call
is pending on the first. -/
theorem C1_amended_install_only_witness :
    (step (run [Ev.connect 0, Ev.invoke 1 "r1" "GET_DOM"]) (.connect 1)).pluginClient
        = some 1 ∧
    (step (run [Ev.connect 0, Ev.invoke 1 "r1" "GET_DOM"]) (.connect 1)).pending
        = (run [Ev.connect 0, Ev.invoke 1 "r1" "GET_DOM"]).pending ∧
    (step (step (run [Ev.connect 0, Ev.invoke 1 "r1" "GET_DOM"]) (.connect 1))
        (.invoke 2 "r2" "INJECT_CSS")).sent
      = (1, "r2", "INJECT_CSS") :: (run [Ev.connect 0, Ev.invoke 1 "r1" "GET_DOM"]).sent := by
  have h := C1_amended_install_only [Ev.connect 0, Ev.invoke 1 "r1" "GET_DOM"] 1 (by decide)
  exact ⟨h.1, h.2.1,
    h.2.2.2.2.2 2 "r2" "INJECT_CSS" (by decide) (by decide) (by decide) (by decide)⟩

/-- Claim C2: across every event sequence, each call is settled at most
once (the outcome log never repeats a call), the pending table never
holds two entries for one id, a message settles a call only when it
carries exactly the correlation id registered for that call, and the
losing removal paths — a message or a timeout firing for an id with no
table entry — change nothing at all. -/
theorem C2_exactly_once (tr : List Ev) :
    ((run tr).outcomes.map Prod.fst).Nodup ∧
    ((run tr).pending.map Prod.fst).Nodup ∧
    (∀ c m k, k ∉ (run tr).settled → k ∈ (step (run tr) (.message c m)).settled →
      ∃ msg rid, m = some msg ∧ msg.requestId = some rid ∧
        afind (run tr).pending rid = some k) ∧
    (∀ c msg rid, msg.requestId = some rid → afind (run tr).pending rid = none →
      step (run tr) (.message c (some msg)) = run tr) ∧
    (∀ rid, afind (run tr).timers rid = none → step (run tr) (.timeout rid) = run tr) := by
  have h := inv_run tr
  refine ⟨?_, h.pendingRids, ?_, ?_, ?_⟩
  · rw [h.outcomesKeys]
    exact h.settledNodup
  · intro c m k hns hs
    exact message_settles_matching hns hs
  · intro c msg rid hid hfind
    exact message_noop c hid hfind
  · intro rid hfind
    exact timeout_noop hfind

/-- Claim C2, witness: on a concrete run with one registered call, the
outcome log is duplicate-free and a response carrying an unknown id is
a no-op. -/
theorem C2_exactly_once_witness :
    ((run [Ev.connect 0, Ev.invoke 1 "r1" "GET_DOM"]).outcomes.map Prod.fst).Nodup ∧
    step (run [Ev.connect 0, Ev.invoke 1 "r1" "GET_DOM"])
        (.message 0 (some ⟨some "zz", none, none, none, none⟩))
      = run [Ev.connect 0, Ev.invoke 1 "r1" "GET_DOM"] :=
  ⟨(C2_exactly_once [Ev.connect 0, Ev.invoke 1 "r1" "GET_DOM"]).1,
   (C2_exactly_once [Ev.connect 0, Ev.invoke 1 "r1" "GET_DOM"]).2.2.2.1 0
     ⟨some "zz", none, none, none, none⟩ "zz" rfl (by decide)⟩

/-- Claim C3: when the timer registered for an id fires, its call is
rejected with the timeout outcome, the entry and the timer are gone,
and a correlated message arriving afterwards is discarded without any
effect on the state (no resolution, no duplicate settlement). -/
theorem C3_timeout_then_discard (tr : List Ev) (rid : RId) (k d : Nat)
    (hfind : afind (run tr).timers rid = some (k, d)) :
    (k, Outcome.timeout) ∈ (step (run tr) (.timeout rid)).outcomes ∧
    afind (step (run tr) (.timeout rid)).pending rid = none ∧
    afind (step (run tr) (.timeout rid)).timers rid = none ∧
    ∀ c msg, msg.requestId = some rid →
      step (step (run tr) (.timeout rid)) (.message c (some msg))
        = step (run tr) (.timeout rid) := by
  have h := inv_run tr
  have hmem : (rid, k) ∈ (run tr).pending := h.timersSub _ (afind_mem hfind)
  have hfreshk : k ∉ (run tr).settled := h.pendingFresh _ hmem
  have hstep : step (run tr) (.timeout rid) = settle { run tr with
      timers := (run tr).timers.filter (fun t => !(t.1 == rid)),
      pending := (run tr).pending.filter (fun p => !(p.1 == rid)) } k Outcome.timeout := by
    simp only [step, hfind]
  rw [hstep]
  refine ⟨settle_mem_outcomes Outcome.timeout hfreshk, ?_, ?_, ?_⟩
  · rw [settle_pending]
    exact afind_filter_self
  · rw [settle_timers]
    exact afind_filter_self
  · intro c msg hid
    apply message_noop c hid
    rw [settle_pending]
    exact afind_filter_self

/-- Claim C3, witness: the concrete call `1` under id `"r1"` times out
and the late response for `"r1"` is then a no-op. -/
theorem C3_timeout_then_discard_witness :
    ((1 : Nat), Outcome.timeout)
      ∈ (step (run [Ev.connect 0, Ev.invoke 1 "r1" "GET_DOM"]) (.timeout "r1")).outcomes ∧
    step (step (run [Ev.connect 0, Ev.invoke 1 "r1" "GET_DOM"]) (.timeout "r1"))
        (.message 0 (some ⟨some "r1", some "DOM_SNAPSHOT", some "x", some true, none⟩))
      = step (run [Ev.connect 0, Ev.invoke 1 "r1" "GET_DOM"]) (.timeout "r1") :=
  ⟨(C3_timeout_then_discard [Ev.connect 0, Ev.invoke 1 "r1" "GET_DOM"] "r1" 1 15000
      (by decide)).1,
   (C3_timeout_then_discard [Ev.connect 0, Ev.invoke 1 "r1" "GET_DOM"] "r1" 1 15000
      (by decide)).2.2.2 0 ⟨some "r1", some "DOM_SNAPSHOT", some "x", some true, none⟩ rfl⟩

/-- Claim C4: an invoke while the slot is empty, or while the installed
transport is not OPEN, is rejected immediately with the no-endpoint
error; no frame is sent and neither the pending table nor the timers
change. -/
theorem C4_no_endpoint (tr : List Ev) (k : Nat) (rid : RId) (ty : String)
    (hk1 : k ∉ (run tr).settled) (hk2 : k ∉ (run tr).pending.map Prod.snd)
    (hr1 : rid ∉ (run tr).pending.map Prod.fst) (hr2 : rid ≠ "")
    (hno : (run tr).pluginClient = none ∨
      ∃ c, (run tr).pluginClient = some c ∧ connOpen (run tr) c = false) :
    (step (run tr) (.invoke k rid ty)).outcomes
        = (k, Outcome.noEndpoint) :: (run tr).outcomes ∧
    (step (run tr) (.invoke k rid ty)).sent = (run tr).sent ∧
    (step (run tr) (.invoke k rid ty)).pending = (run tr).pending ∧
    (step (run tr) (.invoke k rid ty)).timers = (run tr).timers := by
  have hg : ¬(k ∈ (run tr).settled ∨ k ∈ (run tr).pending.map Prod.snd ∨
      rid ∈ (run tr).pending.map Prod.fst ∨ rid = "") := by
    push_neg
    exact ⟨hk1, hk2, hr1, hr2⟩
  have hstep : step (run tr) (.invoke k rid ty) = settle (run tr) k Outcome.noEndpoint := by
    rcases hno with hnone | ⟨c, hsome, hclosed⟩
    · simp only [step, if_neg hg, hnone]
    · simp only [step, if_neg hg, hsome, hclosed]
      rw [if_neg]
      simp [hclosed]
  rw [hstep, settle_fresh_eq Outcome.noEndpoint hk1]
  exact ⟨rfl, rfl, rfl, rfl⟩

/-- Claim C4, witness: invoking before any connection was ever
accepted. -/
theorem C4_no_endpoint_witness :
    (step (run []) (.invoke 0 "r0" "GET_DOM")).outcomes
        = [((0 : Nat), Outcome.noEndpoint)] ∧
    (step (run []) (.invoke 0 "r0" "GET_DOM")).sent = [] :=
  ⟨(C4_no_endpoint [] 0 "r0" "GET_DOM" (by decide) (by decide) (by decide) (by decide)
      (Or.inl (by decide))).1,
   (C4_no_endpoint [] 0 "r0" "GET_DOM" (by decide) (by decide) (by decide) (by decide)
      (Or.inl (by decide))).2.1⟩

/-- Claim C5: when the installed connection closes with calls
outstanding, every pending call is rejected with the disconnect error,
exactly once each (the outcome log stays duplicate-free), every timer
is cancelled, and the table is empty afterwards. -/
theorem C5_close_rejects_all (tr : List Ev) (c : Nat)
    (hplug : (run tr).pluginClient = some c) :
    (step (run tr) (.closeC c)).pending = [] ∧
    (step (run tr) (.closeC c)).timers = [] ∧
    ((step (run tr) (.closeC c)).outcomes.map Prod.fst).Nodup ∧
    ∀ p ∈ (run tr).pending,
      (p.2, Outcome.disconnected) ∈ (step (run tr) (.closeC c)).outcomes := by
  have h := inv_run tr
  exact closeC_drains h (h.plugOpen c hplug)

/-- Claim C5, witness: closing the active connection with call `1`
outstanding empties the table and rejects the call. -/
theorem C5_close_rejects_all_witness :
    (step (run [Ev.connect 0, Ev.invoke 1 "r1" "GET_DOM"]) (.closeC 0)).pending = [] ∧
    (step (run [Ev.connect 0, Ev.invoke 1 "r1" "GET_DOM"]) (.closeC 0)).timers = [] ∧
    ((1 : Nat), Outcome.disconnected)
      ∈ (step (run [Ev.connect 0, Ev.invoke 1 "r1" "GET_DOM"]) (.closeC 0)).outcomes :=
  ⟨(C5_close_rejects_all [Ev.connect 0, Ev.invoke 1 "r1" "GET_DOM"] 0 (by decide)).1,
   (C5_close_rejects_all [Ev.connect 0, Ev.invoke 1 "r1" "GET_DOM"] 0 (by decide)).2.1,
   (C5_close_rejects_all [Ev.connect 0, Ev.invoke 1 "r1" "GET_DOM"] 0 (by decide)).2.2.2
     ("r1", 1) (by decide)⟩

/-- Claim C6, counterexample.  The claim says the invoke timeout is
configurable per call (deadline = now + caller-supplied timeout when
one is given).  `sendToPlugin` takes no timeout argument: in no run is
a timer ever registered with a delay other than the fixed
`REQUEST_TIMEOUT_MS = 15000`, so no invocation can carry a
caller-supplied timeout. -/
theorem C6_counterexample :
    ¬ ∃ (tr : List Ev) (t : RId × Nat × Nat),
        t ∈ (run tr).timers ∧ t.2.2 ≠ 15000 := by
  rintro ⟨tr, t, ht, hne⟩
  exact hne ((inv_run tr).timerDelay t ht)

/-- Claim C6, amended: the per-call timeout is not configurable; every
registered timer carries the fixed default delay of 15 seconds
(`REQUEST_TIMEOUT_MS` = 15000 ms). -/
theorem C6_fixed_default (tr : List Ev) (t : RId × Nat × Nat)
    (ht : t ∈ (run tr).timers) : t.2.2 = 15000 :=
  (inv_run tr).timerDelay t ht

/-- Claim C6 amended, witness: the timer registered for the concrete
call `1` carries the 15000 ms delay. -/
theorem C6_fixed_default_witness :
    ("r1", 1, 15000) ∈ (run [Ev.connect 0, Ev.invoke 1 "r1" "GET_DOM"]).timers ∧
    (("r1", 1, 15000) : RId × Nat × Nat).2.2 = 15000 :=
  ⟨by decide,
   C6_fixed_default [Ev.connect 0, Ev.invoke 1 "r1" "GET_DOM"] ("r1", 1, 15000) (by decide)⟩

/-- Claim C9: the close handler drains the whole shared pending table
even when the closing socket is not the installed connection: if a
displaced stale connection closes, the table empties, every pending
call — including calls sent on the new connection — is rejected with
the disconnect error, and the slot still points at the new
connection. -/
theorem C9_stale_close_drains (tr : List Ev) (c : Nat)
    (hopen : connOpen (run tr) c = true)
    (hstale : (run tr).pluginClient ≠ some c) :
    (step (run tr) (.closeC c)).pending = [] ∧
    (∀ p ∈ (run tr).pending,
      (p.2, Outcome.disconnected) ∈ (step (run tr) (.closeC c)).outcomes) ∧
    (step (run tr) (.closeC c)).pluginClient = (run tr).pluginClient := by
  have h := inv_run tr
  have hd := closeC_drains h hopen
  refine ⟨hd.1, hd.2.2.2, ?_⟩
  rw [step_closeC_open hopen, settleAll_plugin]
  show (if (run tr).pluginClient = some c then none else (run tr).pluginClient)
      = (run tr).pluginClient
  rw [if_neg hstale]

/-- Claim C9, witness: connection 0 is displaced by connection 1, call
`5` is then sent on connection 1; when the stale connection 0 closes,
call `5` is rejected although its connection is still installed. -/
theorem C9_stale_close_drains_witness :
    (step (run [Ev.connect 0, Ev.connect 1, Ev.invoke 5 "r" "GET_DOM"]) (.closeC 0)).pending
        = [] ∧
    ((5 : Nat), Outcome.disconnected)
      ∈ (step (run [Ev.connect 0, Ev.connect 1, Ev.invoke 5 "r" "GET_DOM"])
          (.closeC 0)).outcomes ∧
    (step (run [Ev.connect 0, Ev.connect 1, Ev.invoke 5 "r" "GET_DOM"])
        (.closeC 0)).pluginClient = some 1 :=
  ⟨(C9_stale_close_drains [Ev.connect 0, Ev.connect 1, Ev.invoke 5 "r" "GET_DOM"] 0
      (by decide) (by decide)).1,
   (C9_stale_close_drains [Ev.connect 0, Ev.connect 1, Ev.invoke 5 "r" "GET_DOM"] 0
      (by decide) (by decide)).2.1 ("r", 5) (by decide),
   ((C9_stale_close_drains [Ev.connect 0, Ev.connect 1, Ev.invoke 5 "r" "GET_DOM"] 0
      (by decide) (by decide)).2.2).trans (by decide)⟩

/-- Claim C7: after `k` consecutive failures since the last successful
open, the close handler schedules the next reconnect attempt after
`min(1000 ms * 2^k, 30000 ms)` and then increments the attempt counter;
a successful open resets the counter to zero, so the delay scheduled
after the next failure is the 1 second base again. -/
theorem C7_backoff (s : AgentState) (k : Nat) (hk : s.reconnectAttempt = k)
    (hc : s.wsConn.isSome = true) :
    (astep s .closeEvt).scheduledDelays.head? = some (min (1000 * 2 ^ k) 30000) ∧
    (astep s .closeEvt).reconnectAttempt = k + 1 ∧
    ∀ t : AgentState, t.wsConn = some WsPhase.connecting →
      (astep t .openEvt).reconnectAttempt = 0 ∧
      (astep (astep t .openEvt) .closeEvt).scheduledDelays.head? = some 1000 := by
  rcases hs : s.wsConn with _ | ph
  · rw [hs] at hc
    simp at hc
  · refine ⟨?_, ?_, ?_⟩
    · simp only [astep, hs, hk]
      rfl
    · simp only [astep, hs, hk]
    · intro t ht
      constructor
      · simp only [astep, ht]
      · simp only [astep, ht]
        rfl

/-- Claim C7, witness: the first failure after a fresh connect attempt
schedules a 1000 ms = min(1000 * 2^0, 30000) retry and bumps the
counter to 1. -/
theorem C7_backoff_witness :
    (astep (astep agentInit .connectAttempt) .closeEvt).scheduledDelays.head?
        = some (min (1000 * 2 ^ 0) 30000) ∧
    (astep (astep agentInit .connectAttempt) .closeEvt).reconnectAttempt = 0 + 1 :=
  ⟨(C7_backoff (astep agentInit .connectAttempt) 0 (by decide) (by decide)).1,
   (C7_backoff (astep agentInit .connectAttempt) 0 (by decide) (by decide)).2.1⟩

/-- Claim C8: while connected, every Request carrying a (truthy)
requestId gets exactly one reply, always echoing that id: a Response
when the local operation succeeds, an ErrorResponse when it throws or
its payload fails validation, and an ErrorResponse echoing the id for
an unknown operation name. -/
theorem C8_one_reply (domSnap : Except String String) (injectThrows : Option String)
    (doc : Option String) (msg : WSMessage) (rid : String)
    (h1 : msg.requestId = some rid) (h2 : rid ≠ "") :
    (handleMessage true domSnap injectThrows doc msg).1.length = 1 ∧
    (∀ w ∈ (handleMessage true domSnap injectThrows doc msg).1, replyRid w = rid) ∧
    (requestSucceeds msg domSnap injectThrows = true →
      ∃ ty d, (handleMessage true domSnap injectThrows doc msg).1
        = [AgentWire.response rid ty d true]) ∧
    (requestSucceeds msg domSnap injectThrows = false →
      ∃ e, (handleMessage true domSnap injectThrows doc msg).1
        = [AgentWire.errorResp rid e]) := by
  by_cases hg : msg.ty = "GET_DOM"
  · rcases domSnap with e | snap
    · simp [handleMessage, requestSucceeds, h1, h2, hg, sendError, replyRid]
    · simp [handleMessage, requestSucceeds, h1, h2, hg, sendResponse, replyRid]
  · by_cases hi : msg.ty = "INJECT_CSS"
    · rcases hdata : msg.data with _ | _ | b | n | css
      · simp [handleMessage, requestSucceeds, h1, h2, hg, hi, hdata, sendError, replyRid]
      · simp [handleMessage, requestSucceeds, h1, h2, hg, hi, hdata, sendError, replyRid]
      · simp [handleMessage, requestSucceeds, h1, h2, hg, hi, hdata, sendError, replyRid]
      · simp [handleMessage, requestSucceeds, h1, h2, hg, hi, hdata, sendError, replyRid]
      · by_cases hcss : css = ""
        · simp [handleMessage, requestSucceeds, h1, h2, hg, hi, hdata, hcss, sendError,
            replyRid]
        · rcases injectThrows with _ | e
          · simp [handleMessage, requestSucceeds, h1, h2, hg, hi, hdata, hcss,
              sendResponse, replyRid]
          · simp [handleMessage, requestSucceeds, h1, h2, hg, hi, hdata, hcss, sendError,
              replyRid]
    · simp [handleMessage, requestSucceeds, h1, h2, hg, hi, sendError, replyRid]

/-- Claim C8, witness: a concrete unknown-operation Request gets
exactly one reply echoing its id. -/
theorem C8_one_reply_witness :
    (handleMessage true (Except.ok "<body/>") none none
        ⟨some "q7", "DESTROY_ALL", JsValue.undef⟩).1.length = 1 ∧
    requestSucceeds ⟨some "q7", "DESTROY_ALL", JsValue.undef⟩ (Except.ok "<body/>") none
        = false ∧
    ∃ e, (handleMessage true (Except.ok "<body/>") none none
        ⟨some "q7", "DESTROY_ALL", JsValue.undef⟩).1 = [AgentWire.errorResp "q7" e] :=
  ⟨(C8_one_reply (Except.ok "<body/>") none none
      ⟨some "q7", "DESTROY_ALL", JsValue.undef⟩ "q7" rfl (by decide)).1,
   by decide,
   (C8_one_reply (Except.ok "<body/>") none none
      ⟨some "q7", "DESTROY_ALL", JsValue.undef⟩ "q7" rfl (by decide)).2.2.2 (by decide)⟩

/-- Claim C10: an INJECT_CSS Request whose payload is the empty string
or not a string at all is answered with the `Invalid CSS: expected a
non-empty string` error, and the injected style element keeps exactly
its previous content — `injectCSS` is never reached. -/
theorem C10_invalid_css (domSnap : Except String String) (injectThrows : Option String)
    (doc : Option String) (rid : String) (d : JsValue) (h2 : rid ≠ "")
    (hd : ∀ s, d = JsValue.strv s → s = "") :
    handleMessage true domSnap injectThrows doc ⟨some rid, "INJECT_CSS", d⟩ =
      ([AgentWire.errorResp rid "Invalid CSS: expected a non-empty string"], doc) := by
  rcases d with _ | _ | b | n | css
  case strv =>
    have hcss : css = "" := hd css rfl
    subst hcss
    simp [handleMessage, if_neg h2, sendError]
  all_goals
    simp [handleMessage, if_neg h2, sendError]

/-- Claim C10, witness: the empty-string payload gets the invalid-CSS
error and the previously injected style content survives. -/
theorem C10_invalid_css_witness :
    handleMessage true (Except.ok "<body/>") none (some "body { color: red }")
        ⟨some "q1", "INJECT_CSS", JsValue.strv ""⟩ =
      ([AgentWire.errorResp "q1" "Invalid CSS: expected a non-empty string"],
        some "body { color: red }") :=
  C10_invalid_css (Except.ok "<body/>") none (some "body { color: red }") "q1"
    (JsValue.strv "") (by decide) (fun s hs => by cases hs; rfl)

end LeagueClientMcp
